import Mathlib

/-!
# kssh / kssh-agent

A shallow embedding of the three Go source files of `atotto/kssh`:

* `main.go` (the `kssh` client): `main` and `loadSigner` (of `run` only the call is recorded);
* `kssh-agent/main.go` (the agent): `main`, `script`;
* `kssh-agent/server/agent_unix.go`: `Serve`.

Calls into the Go standard library and into third-party packages are either
modelled by small executable functions (`fmt.Sprintf`, `strings.SplitN`,
`strings.HasPrefix`, `filepath.Join`, `flag.Parse`) or taken as outcomes
supplied by the environment (KMS, file system, network).  Every call that
the program makes on the outside world is recorded as an `Event`.
-/

namespace Kssh

/-! ## Go values -/

/-- A Go `error` value, identified by its message.  `io.EOF` is kept apart because
`Serve` compares against it by identity. -/
inductive GoError where
  | eof
  | msg (text : String)
  deriving DecidableEq, Repr

/-- The `Error()` method of an error value. -/
def GoError.Error : GoError → String
  | .eof => "EOF"
  | .msg t => t

/-! ## `fmt.Sprintf` for the verbs the program uses -/

/-- An operand of a formatting call. -/
inductive Arg where
  | str (v : String)
  | int (v : Int)
  deriving DecidableEq, Repr

/-- Go type name and default rendering of an operand, as they appear in the
bad-operand markers of `fmt`. -/
def Arg.typed : Arg → String
  | .str v => "string=" ++ v
  | .int v => "int=" ++ toString v

/-- The marker `fmt` appends when operands are left over. -/
def extraMarker : List Arg → List Char
  | [] => []
  | a :: rest => ("%!(EXTRA " ++ ", ".intercalate ((a :: rest).map Arg.typed) ++ ")").data

/-- The formatting loop of `fmt.Sprintf`, on the characters of the format.
Modelled verbs: `%s` (string operand), `%d` (integer operand) and `%%`.
A verb applied to an operand of the wrong kind, a missing operand and a
trailing `%` give the markers Go prints; any other verb character is outside
this model and is rendered as a bad verb. -/
def sprintfLoop : List Char → List Arg → List Char
  | [], args => extraMarker args
  | c :: rest, args =>
    if c ≠ '%' then c :: sprintfLoop rest args
    else
      match rest, args with
      | [], left => "%!(NOVERB)".data ++ extraMarker left
      | v :: rest1, [] =>
        if v = '%' then '%' :: sprintfLoop rest1 []
        else ['%', '!', v] ++ "(MISSING)".data ++ sprintfLoop rest1 []
      | v :: rest1, a :: args1 =>
        if v = '%' then '%' :: sprintfLoop rest1 (a :: args1)
        else
          match v, a with
          | 's', .str x => x.data ++ sprintfLoop rest1 args1
          | 'd', .int x => (toString x).data ++ sprintfLoop rest1 args1
          | _, _ => ['%', '!', v, '('] ++ a.typed.data ++ [')'] ++ sprintfLoop rest1 args1

/-- The call `fmt.Sprintf(format, args...)`. -/
def Sprintf (format : String) (args : List Arg) : String :=
  ⟨sprintfLoop format.data args⟩

/-! ## `strings.HasPrefix`, `strings.Index`, `strings.SplitN` -/

/-- The call `strings.HasPrefix(s, pre)`. -/
def HasPrefix (s pre : String) : Bool :=
  pre.data.isPrefixOf s.data

/-- Scan for `strings.Index`: `i` is the offset already skipped. -/
def indexFrom (sep : List Char) : List Char → Nat → Int
  | [], i => if sep = [] then (i : Int) else -1
  | c :: t, i => if sep.isPrefixOf (c :: t) then (i : Int) else indexFrom sep t (i + 1)

/-- The call `strings.Index(s, sep)`: offset of the first occurrence of `sep`, or `-1`. -/
def Index (s sep : List Char) : Int :=
  indexFrom sep s 0

/-- Scan for `strings.Count` with a non-empty separator: non-overlapping occurrences. -/
def countLoop (sep : List Char) : Nat → List Char → Nat
  | 0, _ => 0
  | fuel + 1, s =>
    let m := Index s sep
    if m < 0 then 0 else 1 + countLoop sep fuel (s.drop (m.toNat + sep.length))

/-- The call `strings.Count(s, sep)` for a non-empty `sep`. -/
def Count (s sep : List Char) : Nat :=
  countLoop sep (s.length + 1) s

/-- The helper `explode(s, n)` of package `strings`: up to `n` pieces of one character each,
the last piece holding the remainder. -/
def explode (s : List Char) (n : Int) : List (List Char) :=
  let l := s.length
  let n := if n < 0 ∨ n > (l : Int) then l else n.toNat
  if n = 0 then [] else (s.take (n - 1)).map (fun c => [c]) ++ [s.drop (n - 1)]

/-- The loop `for i < n` of `genSplit`; `k` is `n - i`, the pieces still to cut off. -/
def genSplitLoop (sep : List Char) (sepSave : Nat) : Nat → List Char → List (List Char)
  | 0, s => [s]
  | k + 1, s =>
    let m := Index s sep
    if m < 0 then [s]
    else s.take (m.toNat + sepSave) :: genSplitLoop sep sepSave k (s.drop (m.toNat + sep.length))

/-- The helper `genSplit(s, sep, sepSave, n)` of package `strings`. -/
def genSplit (s sep : String) (sepSave : Nat) (n : Int) : List String :=
  if n = 0 then []
  else if sep = "" then (explode s.data n).map String.mk
  else
    let n1 : Int := if n < 0 then (Count s.data sep.data : Int) + 1 else n
    let n2 : Int := if n1 > (s.utf8ByteSize : Int) + 1 then (s.utf8ByteSize : Int) + 1 else n1
    (genSplitLoop sep.data sepSave (n2.toNat - 1) s.data).map String.mk

/-- The call `strings.SplitN(s, sep, n)`. -/
def SplitN (s sep : String) (n : Int) : List String :=
  genSplit s sep 0 n

/-! ## `filepath.Join` (Unix) -/

/-- The pieces of a path between its slashes. -/
def splitSlash : List Char → List (List Char)
  | [] => [[]]
  | c :: t =>
    if c = '/' then [] :: splitSlash t
    else
      match splitSlash t with
      | [] => [[c]]
      | p :: ps => (c :: p) :: ps

/-- One path element met by `filepath.Clean`; `stack` holds the elements kept so far,
the last one first.  Empty elements and `.` are dropped, `..` removes the element
before it, is dropped at the root, and is kept at the start of a relative path. -/
def cleanPush (rooted : Bool) (stack : List (List Char)) (c : List Char) : List (List Char) :=
  if c = [] ∨ c = ['.'] then stack
  else if c = ['.', '.'] then
    match stack with
    | [] => if rooted then [] else [c]
    | top :: below => if top = ['.', '.'] then c :: stack else below
  else c :: stack

/-- The call `filepath.Clean(path)`, by the rules of its documentation. -/
def Clean (path : List Char) : List Char :=
  let rooted : Bool := path.head? = some '/'
  let kept := ((splitSlash path).foldl (cleanPush rooted) []).reverse
  let body := List.intercalate ['/'] kept
  if rooted then '/' :: body else if body = [] then ['.'] else body

/-- The call `filepath.Join(elem...)`: the elements from the first non-empty one on,
joined by slashes and cleaned; the empty string when all are empty. -/
def Join (elem : List String) : String :=
  match elem.dropWhile (fun e => e = "") with
  | [] => ""
  | rest => ⟨Clean ("/".intercalate rest).data⟩

/-! ## The environment `os/exec` gives a child -/

/-- The NUL character. -/
def nul : Char := Char.ofNat 0

/-- The key of an environment entry as `dedupEnv` of `os/exec` reads it: the text before the
first `=`, or before the next one when the entry starts with `=`; `none` for an entry that
has no `=`. -/
def envKey (kv : String) : Option String :=
  let i := Index kv.data ['=']
  let i := if i = 0 then Index (kv.data.drop 1) ['='] + 1 else i
  if i < 0 then none else some ⟨kv.data.take i.toNat⟩

/-- The loop of `dedupEnv`, which walks the list from its last entry to its first; `saw` holds
the keys met so far.  An entry that contains NUL is dropped, an entry without `=` is kept
unless it is empty, and of the entries with one key only the first one met is kept. -/
def dedupEnvLoop (saw : List String) : List String → List String
  | [] => []
  | kv :: rest =>
    if nul ∈ kv.data then dedupEnvLoop saw rest
    else
      match envKey kv with
      | none => if kv ≠ "" then kv :: dedupEnvLoop saw rest else dedupEnvLoop saw rest
      | some k => if k ∈ saw then dedupEnvLoop saw rest else kv :: dedupEnvLoop (k :: saw) rest

/-- The function `dedupEnv(env)` of `os/exec`, as in Go 1.20 and later: `env` with, for each
key, only its last entry left, in the order of `env`.  (Earlier releases also keep one entry
for each key, with the last value, but at the place of the first entry.) -/
def dedupEnv (env : List String) : List String :=
  (dedupEnvLoop [] env.reverse).reverse

/-- The environment of the child that `cmd.Start()` makes for a non-nil `cmd.Env = env` on
Unix (`(*Cmd).environ`). -/
def cmdEnviron (env : List String) : List String :=
  dedupEnv env

/-- Whether an environment entry sets `SSH_AUTH_SOCK` or `SSH_AGENT_PID`. -/
def setsAgentVar (kv : String) : Bool :=
  envKey kv = some "SSH_AUTH_SOCK" ∨ envKey kv = some "SSH_AGENT_PID"

/-! ## `flag.Parse` for the flag set of the agent -/

/-- Cut a flag name at its first `=`: the name and the value written after it. -/
def cutEq : List Char → List Char × Option (List Char)
  | [] => ([], none)
  | c :: t =>
    if c = '=' then ([], some t)
    else
      let r := cutEq t
      (c :: r.1, r.2)

/-- The loop of `flag.Parse()` over `os.Args[1:]` for the agent, whose flag set defines the
one string flag `-i`.  `key` is the current value of `*key`.  The result is the final value
of `*key` with `flag.Args()`, or the exit code with which `flag.Parse` ends the process
(`2` on a parse error; `0` for `-h` and `-help`, as in Go 1.15 and later). -/
def flagParseLoop : Nat → String → List String → Except Nat (String × List String)
  | 0, key, args => .ok (key, args)
  | _ + 1, key, [] => .ok (key, [])
  | fuel + 1, key, s :: rest =>
    match s.data with
    | '-' :: c :: more =>
      if c = '-' ∧ more = [] then .ok (key, rest)
      else
        let name := if c = '-' then more else c :: more
        match name with
        | [] => .error 2
        | n0 :: _ =>
          if n0 = '-' ∨ n0 = '=' then .error 2
          else
            let cut := cutEq name
            if cut.1 = ['i'] then
              match cut.2, rest with
              | some v, _ => flagParseLoop fuel ⟨v⟩ rest
              | none, v :: rest1 => flagParseLoop fuel v rest1
              | none, [] => .error 2
            else if cut.1 = "help".data ∨ cut.1 = ['h'] then .error 0
            else .error 2
    | _ => .ok (key, s :: rest)

/-- The call `flag.Parse()` of the agent: `kmsKeyPath` is the default of `-i`. -/
def flagParse (kmsKeyPath : String) (osArgs : List String) : Except Nat (String × List String) :=
  flagParseLoop osArgs.length kmsKeyPath (osArgs.drop 1)

/-! ## Keys, signers, key ring -/

/-- A private key as `x509.ParsePKCS8PrivateKey` returns it, tagged by its dynamic type. -/
inductive PrivateKey where
  | rsa (id : Nat)
  | ecdsa (id : Nat)
  | ed25519 (id : Nat)
  | ecdh (id : Nat)
  deriving DecidableEq, Repr

/-- A `crypto.Signer`: a Cloud KMS signer or a local RSA private key. -/
inductive CryptoSigner where
  | kms (id : Nat)
  | rsa (id : Nat)
  deriving DecidableEq, Repr

/-- The option `option.WithCredentialsFile(file)`. -/
structure ClientOption where
  credentialsFile : String
  deriving DecidableEq, Repr

/-- The value `agent.AddedKey` with the two fields the agent sets. -/
structure AddedKey where
  privateKey : Option CryptoSigner
  comment : String
  deriving DecidableEq, Repr

/-- The in-memory key ring made by `agent.NewKeyring()`. -/
structure Keyring where
  keys : List AddedKey
  deriving DecidableEq, Repr

/-- An accepted connection. -/
abbrev Conn := Nat

/-! ## Events: the calls the program makes on the outside world -/

/-- A call on the outside world, in the order the process makes them. -/
inductive Event where
  /-- Text written to standard output (`fmt.Println`, `fmt.Printf`, `fmt.Fprintf(os.Stdout, ..)`). -/
  | stdout (text : String)
  /-- A message given to package `log` (`log.Printf`, `log.Fatalf`). -/
  | log (text : String)
  /-- The usage message (`flag.Usage()`, or `flag.Parse()` rejecting the command line). -/
  | usage
  /-- The call `signal.Notify(sig, SIGTERM, SIGINT)`. -/
  | signalNotify
  /-- The call `kms.NewKeyManagementClient(ctx, opts...)`. -/
  | newKeyManagementClient (opts : List ClientOption)
  /-- The call `client.Close()` on the KMS client. -/
  | clientClose
  /-- The call `cloudkms.NewSigner(client, keyPath)`. -/
  | newSigner (keyPath : String)
  /-- The call `ioutil.ReadFile(path)`. -/
  | readFile (path : String)
  /-- The call `ssh.NewSignerFromSigner(signer)`. -/
  | newSignerFromSigner
  /-- The call `kr.Add(agent.AddedKey{.., Comment: comment})`. -/
  | keyringAdd (comment : String)
  /-- The call `ioutil.TempDir(dir, pattern)`. -/
  | tempDir (dir pattern : String)
  /-- The call `net.Listen(network, address)`. -/
  | listen (network address : String)
  /-- The statement `go server.Serve(listener, kr)`, for the listener at `address`. -/
  | goServe (address : String)
  /-- The call `cmd.Start()` of `exec.CommandContext(ctx, name, args...)` with `cmd.Env = env`;
  the child gets the environment `cmdEnviron env`. -/
  | cmdStart (name : String) (args env : List String)
  /-- The call `cmd.Wait()` has returned. -/
  | cmdWaitReturned
  /-- The call `cancel()` of the context. -/
  | cancel
  /-- The goroutine calling `run(ctx, s, user, host, port)` is started. -/
  | goRun (user host : String) (port : Int)
  /-- The call `conn.Close()` on an accepted connection. -/
  | connClose (conn : Conn)
  /-- A call `Close()` on the listener at `address`; the sources have no such call. -/
  | listenerClose (address : String)
  /-- A call `os.Remove(path)` or `os.RemoveAll(path)`; the sources have no such call. -/
  | remove (path : String)
  deriving DecidableEq, Repr

/-! ## The client: `main.go` -/

/-- An `ssh.Signer` made by `ssh.NewSignerFromSigner`. -/
structure SSHSigner where
  id : Nat
  deriving DecidableEq, Repr

/-- What the outside world gives the `kssh` client: the flag values once `flag.Parse()`
has returned, the environment, and the outcome of each library call. -/
structure ClientWorld where
  /-- Value of `*key` (flag `-i`, default `KSSH_KEY_PATH`). -/
  key : String
  /-- Value of `*username` (flag `-l`, default the current user). -/
  username : String
  /-- Value of `*port` (flag `-p`). -/
  port : Int
  /-- Value of `*printAuthorizedKey` (flag `-authorized_key`). -/
  printAuthorizedKey : Bool
  /-- The positional arguments `flag.Args()`. -/
  flagArgs : List String
  /-- The call `os.Getenv`. -/
  getenv : String → String
  /-- The call `kms.NewKeyManagementClient(ctx, opts...)`: a client handle or an error. -/
  newKeyManagementClient : List ClientOption → Except GoError Nat
  /-- The call `cloudkms.NewSigner(client, path)`: the pair of results, as returned. -/
  newSigner : Nat → String → Option CryptoSigner × Option GoError
  /-- The call `ioutil.ReadFile(path)`. -/
  readFile : String → Except GoError (List Nat)
  /-- The call `pem.Decode(buf)`: the `Bytes` of the first block, if there is a block. -/
  pemDecode : List Nat → Option (List Nat)
  /-- The call `x509.ParsePKCS8PrivateKey(der)`. -/
  parsePKCS8PrivateKey : List Nat → Except GoError PrivateKey
  /-- The call `ssh.NewSignerFromSigner(signer)`. -/
  newSignerFromSigner : Option CryptoSigner → Except GoError SSHSigner
  /-- The text `ssh.MarshalAuthorizedKey(s.PublicKey())`. -/
  marshalAuthorizedKey : SSHSigner → String

/-- The function `loadSigner(ctx, path)`: the calls it makes, and the pair
`(crypto.Signer, error)` it returns (`none` stands for `nil`). -/
def loadSigner (w : ClientWorld) (path : String) :
    List Event × (Option CryptoSigner × Option GoError) :=
  if HasPrefix path "projects" then
    let keyPath := w.getenv "GOOGLE_APPLICATION_CREDENTIALS"
    let opts : List ClientOption := if keyPath ≠ "" then [⟨keyPath⟩] else []
    match w.newKeyManagementClient opts with
    | .error err => ([.newKeyManagementClient opts], (none, some err))
    | .ok client => ([.newKeyManagementClient opts, .newSigner path], w.newSigner client path)
  else
    match w.readFile path with
    | .error err => ([.readFile path], (none, some err))
    | .ok buf =>
      match w.pemDecode buf with
      | none => ([.readFile path], (none, some (.msg (Sprintf "Failed to decode" []))))
      | some block =>
        match w.parsePKCS8PrivateKey block with
        | .error err => ([.readFile path], (none, some err))
        | .ok privateKey =>
          match privateKey with
          | .rsa k => ([.readFile path], (some (.rsa k), none))
          | _ => ([.readFile path], (none, some (.msg (Sprintf "not implemented yet" []))))

/-- Lines 78-82 of `main`: the login name and host taken from the destination argument. -/
def destination (username hostname : String) : String × String :=
  match SplitN hostname "@" 2 with
  | [name, host] => (name, host)
  | _ => (username, hostname)

/-- How the main goroutine of the client leaves its start-up code. -/
inductive Outcome where
  /-- The process has terminated with this exit code. -/
  | exit (code : Nat)
  /-- The goroutine calling `run(ctx, s, user, host, port)`, the only caller of `ssh.Dial`,
  has been started and `main` waits in its `select`. -/
  | session (s : SSHSigner) (user host : String) (port : Int)
  deriving DecidableEq, Repr

/-- The function `main` of the client, from `flag.Parse()` returning up to the `select`:
the calls made, in order, and how the start-up code is left. -/
def ksshMain (w : ClientWorld) : List Event × Outcome :=
  if w.key = "" then ([.stdout "Please set kms key\n"], .exit 2)
  else
    let loaded := loadSigner w w.key
    let t1 := [Event.signalNotify] ++ loaded.1
    match loaded.2.2 with
    | some err => (t1 ++ [.log (Sprintf "load key: %s" [.str err.Error])], .exit 1)
    | none =>
      let t2 := t1 ++ [Event.newSignerFromSigner]
      match w.newSignerFromSigner loaded.2.1 with
      | .error err => (t2 ++ [.log (Sprintf "load signer: %s" [.str err.Error])], .exit 1)
      | .ok s =>
        if w.printAuthorizedKey then
          (t2 ++ [.stdout (Sprintf "%s\n" [.str (w.marshalAuthorizedKey s)])], .exit 0)
        else if w.flagArgs.length = 0 then (t2 ++ [.usage], .exit 2)
        else
          let dest := destination w.username (w.flagArgs.getD 0 "")
          (t2 ++ [.goRun dest.1 dest.2 w.port], .session s dest.1 dest.2 w.port)

/-! ## The agent server: `kssh-agent/server/agent_unix.go` -/

/-- A goroutine started by the `go func()` of `Serve`. -/
structure Handler where
  /-- The key ring it serves (`kr`, captured). -/
  kr : Keyring
  /-- The connection it serves (`conn`, captured). -/
  conn : Conn
  /-- Whether the goroutine has returned. -/
  finished : Bool
  deriving DecidableEq, Repr

/-- The state of one call `Serve(listener, kr)` and of the goroutines it started. -/
structure ServeState where
  /-- Address of the listener. -/
  listener : String
  /-- The key ring passed in. -/
  kr : Keyring
  /-- The handler goroutines, in the order they were started. -/
  handlers : List Handler
  /-- The results `(env, err)` once `Serve` has returned; `none` while its loop runs. -/
  returned : Option (Option (List String) × Option GoError)
  /-- The calls made by the handlers. -/
  events : List Event
  deriving DecidableEq, Repr

/-- What can happen next in the server. -/
inductive ServeAction where
  /-- The pending `listener.Accept()` returns. -/
  | accept (result : Except GoError Conn)
  /-- The call `agent.ServeAgent(kr, conn)` of handler `i` returns `err`. -/
  | sessionEnd (i : Nat) (err : Option GoError)

/-- The call `Serve(listener, kr)` entered, blocked in its first `Accept`. -/
def Serve (listener : String) (kr : Keyring) : ServeState :=
  ⟨listener, kr, [], none, []⟩

/-- Lines 19-25: what a handler does once `agent.ServeAgent(kr, conn)` has returned `err`. -/
def handlerBody (conn : Conn) (err : Option GoError) : List Event :=
  match err with
  | some e => if e ≠ GoError.eof then [.log (Sprintf "serve agent: %s" [.str e.Error])] else []
  | none => [.connClose conn]

/-- Lines 14-26: one iteration of the accept loop, given what `Accept` returned. -/
def acceptIteration (s : ServeState) (result : Except GoError Conn) : ServeState :=
  match result with
  | .error err =>
    { s with returned := some (none, some (.msg (Sprintf "accept: %s" [.str err.Error]))) }
  | .ok conn => { s with handlers := s.handlers ++ [⟨s.kr, conn, false⟩] }

/-- One step of the server.  An `accept` is taken while the loop of `Serve` runs; a
`sessionEnd` is taken by a handler that has not returned yet.  Other actions change nothing. -/
def serveStep (s : ServeState) : ServeAction → ServeState
  | .accept result => if s.returned.isSome then s else acceptIteration s result
  | .sessionEnd i err =>
    match s.handlers[i]? with
    | none => s
    | some h =>
      if h.finished then s
      else
        { s with
          handlers := s.handlers.set i { h with finished := true }
          events := s.events ++ handlerBody h.conn err }

/-- The server after a schedule of actions. -/
def serveRun (listener : String) (kr : Keyring) (sched : List ServeAction) : ServeState :=
  sched.foldl serveStep (Serve listener kr)

/-! ## The agent: `kssh-agent/main.go` -/

/-- The constant `script`. -/
def script : String :=
  "SSH_AUTH_SOCK=%s; export SSH_AUTH_SOCK;\nSSH_AGENT_PID=%d; export SSH_AGENT_PID;\necho Agent pid %d;\n"

/-- What the outside world gives the agent: its command line and environment, and the outcome
of each library call. -/
structure AgentWorld where
  /-- The command line `os.Args`, program name first. -/
  args : List String
  /-- The value `os.Getenv("KSSH_KEY_PATH")`. -/
  kmsKeyPath : String
  /-- The list `os.Environ()`. -/
  environ : List String
  /-- The value `os.Getpid()`. -/
  pid : Int
  /-- The call `kms.NewKeyManagementClient(ctx)`. -/
  newKeyManagementClient : Except GoError Nat
  /-- The call `cloudkms.NewSigner(client, key)`: the pair of results, as returned. -/
  newSigner : Nat → String → Option CryptoSigner × Option GoError
  /-- The call `kr.Add(key)`; `main` drops its result. -/
  keyringAdd : AddedKey → Option GoError
  /-- The call `ioutil.TempDir("", "kssh-")`. -/
  tempDir : Except GoError String
  /-- The call `net.Listen("unix", path)`: `none` when the listener was created. -/
  listen : String → Option GoError
  /-- The call `cmd.Start()`: `none` when the child process was started. -/
  cmdStart : String → List String → List String → Option GoError

/-- The agent process: the calls made by `main` and by the goroutine waiting for the
child, the exit code once the process has terminated, the server goroutines, and whether
a goroutine is blocked in `cmd.Wait()`. -/
structure AgentState where
  trace : List Event
  exit : Option Nat
  serve : Option ServeState
  cmdWaiting : Bool
  deriving DecidableEq, Repr

/-- The process terminated by `os.Exit(code)` during start-up. -/
def halted (trace : List Event) (code : Nat) : AgentState :=
  ⟨trace, some code, none, false⟩

/-- The function `main` of the agent, from `flag.Parse()` up to the `select`. -/
def agentMain (w : AgentWorld) : AgentState :=
  match flagParse w.kmsKeyPath w.args with
  | .error code => halted [.usage] code
  | .ok (key, _) =>
    if key = "" then halted [.stdout "Please set kms key\n"] 2
    else
      let t1 := [Event.signalNotify, Event.newKeyManagementClient []]
      match w.newKeyManagementClient with
      | .error err => halted (t1 ++ [.log (Sprintf "google cloud kms: %s" [.str err.Error])]) 1
      | .ok client =>
        let t2 := t1 ++ [Event.newSigner key]
        match w.newSigner client key with
        | (_, some err) => halted (t2 ++ [.log (Sprintf "load key: %s" [.str err.Error])]) 1
        | (signer, none) =>
          let added : AddedKey := ⟨signer, "kssh"⟩
          let kr : Keyring := if (w.keyringAdd added).isNone then ⟨[added]⟩ else ⟨[]⟩
          let t3 := t2 ++ [Event.keyringAdd "kssh", Event.tempDir "" "kssh-"]
          match w.tempDir with
          | .error err => halted (t3 ++ [.log (Sprintf "dir: %s" [.str err.Error])]) 1
          | .ok tmpDir =>
            let pid := w.pid
            let path := Join [tmpDir, Sprintf "agent.%d" [.int pid]]
            let t4 := t3 ++ [Event.listen "unix" path]
            match w.listen path with
            | some err => halted (t4 ++ [.log (Sprintf "listen: %s" [.str err.Error])]) 1
            | none =>
              let t5 := t4 ++ [Event.goServe path]
              let server := Serve path kr
              let args := w.args
              if args.length ≥ 2 then
                let name := args.getD 1 ""
                let args := args.drop 2
                let env := w.environ ++
                  [Sprintf "SSH_AUTH_SOCK=%s" [.str path], Sprintf "SSH_AGENT_PID=%d" [.int pid]]
                let t6 := t5 ++ [Event.cmdStart name args env]
                match w.cmdStart name args env with
                | some err =>
                  ⟨t6 ++ [.log (Sprintf "exec command: %s" [.str err.Error])], some 1,
                    some server, false⟩
                | none => ⟨t6, none, some server, true⟩
              else
                ⟨t5 ++ [.stdout (Sprintf script [.str path, .int pid, .int pid])], none,
                  some server, false⟩

/-- What can happen next in the agent process once `main` waits in its `select`. -/
inductive Action where
  /-- A step of the server goroutines. -/
  | serve (a : ServeAction)
  /-- SIGTERM or SIGINT arrives on `sig`. -/
  | signal
  /-- The child process ends: `cmd.Wait()` returns in the goroutine of lines 96-99. -/
  | cmdExit

/-- One step of the agent process.  A signal makes `main` call `cancel()` and return; the end
of the child makes the waiting goroutine call `cancel()`, on which `main` leaves its `select`
through `ctx.Done()` and returns.  Returning from `main` runs the deferred `client.Close()`
and ends the process with exit code `0`.  A terminated process takes no step. -/
def agentStep (s : AgentState) (a : Action) : AgentState :=
  if s.exit.isSome then s
  else
    match a with
    | .serve a => { s with serve := s.serve.map (fun sv => serveStep sv a) }
    | .signal => { s with trace := s.trace ++ [.cancel, .clientClose], exit := some 0 }
    | .cmdExit =>
      if s.cmdWaiting then
        { s with
          trace := s.trace ++ [.cmdWaitReturned, .cancel, .clientClose]
          exit := some 0
          cmdWaiting := false }
      else s

/-- The agent process after start-up and a schedule of actions. -/
def agentRun (w : AgentWorld) (sched : List Action) : AgentState :=
  sched.foldl agentStep (agentMain w)

/-- Every call made in the process so far: by `main` and by the server goroutines. -/
def AgentState.allEvents (s : AgentState) : List Event :=
  s.trace ++ (s.serve.map (fun sv => sv.events)).getD []

/-- A call that closes the listener at `path` or removes `path` from the file system. -/
def Event.releases (path : String) : Event → Bool
  | .listenerClose a => a = path
  | .remove p => p = path
  | _ => false

/-! ## Auxiliary definitions used in the statements -/

/-- The characters of `s` before the first `c` (all of `s` when there is none). -/
def before (c : Char) : List Char → List Char
  | [] => []
  | x :: t => if x = c then [] else x :: before c t

/-- The characters of `s` after the first `c` (none when there is no `c`). -/
def after (c : Char) : List Char → List Char
  | [] => []
  | x :: t => if x = c then t else after c t


/-! ## Concrete environments -/

/-- A client environment: the selector names the local file `id_rsa.pem`, which holds a PEM
block with RSA key 7; KMS cannot be reached; `-authorized_key` is set and no host is given. -/
def localKeyWorld : ClientWorld where
  key := "id_rsa.pem"
  username := "me"
  port := 22
  printAuthorizedKey := true
  flagArgs := []
  getenv := fun _ => ""
  newKeyManagementClient := fun _ => .error (.msg "could not find default credentials")
  newSigner := fun client _ => (some (.kms client), none)
  readFile := fun p =>
    if p = "id_rsa.pem" then .ok [45, 45] else .error (.msg "no such file or directory")
  pemDecode := fun buf => if buf = [45, 45] then some [48] else none
  parsePKCS8PrivateKey := fun der =>
    if der = [48] then .ok (.rsa 7) else .error (.msg "asn1: syntax error")
  newSignerFromSigner := fun signer =>
    match signer with
    | some (.rsa k) => .ok ⟨k⟩
    | some (.kms k) => .ok ⟨k⟩
    | none => .error (.msg "ssh: unsupported key type")
  marshalAuthorizedKey := fun _ => "ssh-rsa AAAA\n"

/-- The same client, with a KMS selector although KMS cannot be reached. -/
def unreachableKmsWorld : ClientWorld :=
  { localKeyWorld with key := "projects/p/locations/l/keyRings/r/cryptoKeys/k/cryptoKeyVersions/1" }

/-- An agent environment in which every call succeeds: process 42, temporary directory
`/tmp/kssh-1`, the key taken from `KSSH_KEY_PATH`, and no argument on the command line. -/
def agentWorld : AgentWorld where
  args := ["kssh-agent"]
  kmsKeyPath := "projects/p/locations/l/keyRings/r/cryptoKeys/k/cryptoKeyVersions/1"
  environ := ["HOME=/root"]
  pid := 42
  newKeyManagementClient := .ok 0
  newSigner := fun client _ => (some (.kms client), none)
  keyringAdd := fun _ => none
  tempDir := .ok "/tmp/kssh-1"
  listen := fun _ => none
  cmdStart := fun _ _ _ => none

/-! ## Reading a schedule of the server -/

/-- The connections that `Accept` hands out in a schedule before its first failure. -/
def acceptedConns : List ServeAction → List Conn
  | [] => []
  | .accept (.ok c) :: rest => c :: acceptedConns rest
  | .accept (.error _) :: _ => []
  | .sessionEnd _ _ :: rest => acceptedConns rest

/-- The cause of the first failed `Accept` of a schedule. -/
def firstAcceptError : List ServeAction → Option GoError
  | [] => none
  | .accept (.ok _) :: rest => firstAcceptError rest
  | .accept (.error e) :: _ => some e
  | .sessionEnd _ _ :: rest => firstAcceptError rest

/-- The key ring and connection of each handler. -/
def served (handlers : List Handler) : List (Keyring × Conn) :=
  handlers.map (fun h => (h.kr, h.conn))

/-! ## Reading a run of the agent -/

/-- The calls of the agent before it starts a command or prints the script, when every
start-up step succeeds: `key` is the key selector and `path` the socket path. -/
def startupCalls (key path : String) : List Event :=
  [.signalNotify, .newKeyManagementClient [], .newSigner key, .keyringAdd "kssh",
    .tempDir "" "kssh-", .listen "unix" path, .goServe path]

/-- Whether an action is a step of the server goroutines. -/
def Action.isServe : Action → Bool
  | .serve _ => true
  | _ => false

/-- The agent started as `kssh-agent -i KEY`, with `KSSH_KEY_PATH` unset. -/
def flagOnlyWorld : AgentWorld :=
  { agentWorld with args := ["kssh-agent", "-i", "KEY"], kmsKeyPath := "" }

/-- The agent started as `kssh-agent -i KEY ssh host`, with `KSSH_KEY_PATH` unset. -/
def flagCommandWorld : AgentWorld :=
  { agentWorld with args := ["kssh-agent", "-i", "KEY", "ssh", "host"], kmsKeyPath := "" }

/-- The agent started as `kssh-agent ssh host`, with the key from `KSSH_KEY_PATH`. -/
def commandWorld : AgentWorld :=
  { agentWorld with args := ["kssh-agent", "ssh", "host"] }

/-- The agent started as `kssh-agent ssh host` from a shell that already has an agent: the
environment of the parent holds `SSH_AUTH_SOCK` and `SSH_AGENT_PID`. -/
def inheritedAgentWorld : AgentWorld :=
  { commandWorld with
    environ := ["SSH_AUTH_SOCK=/tmp/ssh-old/agent.7", "HOME=/root", "SSH_AGENT_PID=8"] }

/-- A failed `Accept`, as a listener reports it when the process has run out of file
descriptors. -/
def acceptFailure : Action :=
  .serve (.accept (.error (.msg "accept4: too many open files")))

/-- An agent environment in which `net.Listen` fails. -/
def listenFailsWorld : AgentWorld :=
  { agentWorld with listen := fun _ => some (.msg "bind: permission denied") }
/-! ## Lemmas on the string functions -/

theorem indexFrom_single (c : Char) (s : List Char) (i : Nat) :
    indexFrom [c] s i = if c ∈ s then ((i + (before c s).length : Nat) : Int) else -1 := by
  induction s generalizing i with
  | nil => simp [indexFrom]
  | cons x t ih =>
    unfold indexFrom
    by_cases hx : c = x
    · subst hx; simp [List.isPrefixOf, before]
    · have hx2 : x ≠ c := fun h => hx h.symm
      simp [List.isPrefixOf, hx, hx2, ih, before]
      split
      · omega
      · rfl

theorem before_after (c : Char) (s : List Char) (h : c ∈ s) :
    before c s ++ c :: after c s = s ∧ c ∉ before c s := by
  induction s with
  | nil => simp at h
  | cons x t ih =>
    by_cases hx : x = c
    · subst hx; simp [before, after]
    · have ht : c ∈ t := by
        rcases List.mem_cons.1 h with h1 | h1
        · exact absurd h1.symm hx
        · exact h1
      have hc : ¬ c = x := fun h => hx h.symm
      simp [before, after, hx, hc, ih ht]

theorem take_before (c : Char) (s : List Char) :
    s.take (before c s).length = before c s := by
  induction s with
  | nil => simp [before]
  | cons x t ih =>
    by_cases hx : x = c
    · simp [before, hx]
    · simp [before, hx, ih]

theorem drop_before (c : Char) (s : List Char) (h : c ∈ s) :
    s.drop ((before c s).length + 1) = after c s := by
  induction s with
  | nil => simp at h
  | cons x t ih =>
    by_cases hx : x = c
    · simp [before, after, hx]
    · have ht : c ∈ t := by
        rcases List.mem_cons.1 h with h1 | h1
        · exact absurd h1.symm hx
        · exact h1
      simp [before, after, hx, ih ht]

theorem utf8ByteSize_pos (s : String) (h : s.data ≠ []) : 0 < s.utf8ByteSize := by
  cases s with
  | mk l =>
    cases l with
    | nil => simp at h
    | cons c t =>
      simp only [String.utf8ByteSize, String.utf8ByteSize.go]
      have := Char.utf8Size_pos c
      omega

theorem SplitN_at_mem (d : String) (h : '@' ∈ d.data) :
    SplitN d "@" 2 = [⟨before '@' d.data⟩, ⟨after '@' d.data⟩] := by
  have hne : d.data ≠ [] := by intro h0; rw [h0] at h; simp at h
  have hpos := utf8ByteSize_pos d hne
  have hn2 : ¬ ((2 : Int) > (d.utf8ByteSize : Int) + 1) := by omega
  have hsep : ("@" : String).data = ['@'] := rfl
  have hsep2 : ("@" : String) ≠ "" := by decide
  have h20 : ¬ ((2 : Int) = 0) := by decide
  have h2n : ¬ ((2 : Int) < 0) := by decide
  have hlen : ¬ (((before '@' d.data).length : Int) < 0) := by omega
  simp only [SplitN, genSplit, hsep2, hsep, if_false, if_neg h20, if_neg h2n, if_neg hn2]
  simp [genSplitLoop, Index, indexFrom_single, h, take_before, drop_before, hlen]

theorem SplitN_at_not_mem (d : String) (h : '@' ∉ d.data) :
    SplitN d "@" 2 = [d] := by
  have hsep : ("@" : String).data = ['@'] := rfl
  have hsep2 : ("@" : String) ≠ "" := by decide
  have h20 : ¬ ((2 : Int) = 0) := by decide
  have h2n : ¬ ((2 : Int) < 0) := by decide
  simp only [SplitN, genSplit, hsep2, hsep, if_false, if_neg h20, if_neg h2n]
  by_cases hn2 : ((2 : Int) > (d.utf8ByteSize : Int) + 1)
  · have h0 : d.utf8ByteSize = 0 := by omega
    simp [h0, genSplitLoop]
  · simp only [if_neg hn2]
    simp [genSplitLoop, Index, indexFrom_single, h]

/-! ## Destination parsing in the client -/

/-- C10: for a destination `d` that contains `@`, the login name is the part of `d` before the
first `@` and the host is all that follows it, so `name ++ "@" ++ host = d` with no `@` in the
name, whatever `-l` or the default user were; for a `d` without `@` the host is `d` and the
login name stays as given.  The start-up code of `main` hands exactly this pair, computed from
the first positional argument, to `run`. -/
theorem destination_at_first_at (user d : String) :
    ('@' ∈ d.data →
      ∃ name host, destination user d = (name, host) ∧ name ++ "@" ++ host = d ∧
        '@' ∉ name.data) ∧
    ('@' ∉ d.data → destination user d = (user, d)) ∧
    (∀ (w : ClientWorld) (s : SSHSigner) (u h : String) (p : Int),
      w.username = user → w.flagArgs.head? = some d → (ksshMain w).2 = .session s u h p →
        (u, h) = destination user d) := by
  refine ⟨fun hmem => ?_, fun hmem => ?_, ?_⟩
  · refine ⟨⟨before '@' d.data⟩, ⟨after '@' d.data⟩, ?_, ?_, ?_⟩
    · simp [destination, SplitN_at_mem d hmem]
    · apply String.ext
      have h1 := (before_after '@' d.data hmem).1
      simpa using h1
    · exact (before_after '@' d.data hmem).2
  · simp [destination, SplitN_at_not_mem d hmem]
  · intro w s u h p hu hd hs
    cases hargs : w.flagArgs with
    | nil => rw [hargs] at hd; simp at hd
    | cons a rest =>
      rw [hargs] at hd
      simp at hd
      subst hd
      subst hu
      unfold ksshMain at hs
      simp only [hargs] at hs
      split at hs
      · simp at hs
      · split at hs
        · simp at hs
        · split at hs
          · simp at hs
          · split at hs
            · simp at hs
            · simp at hs
              rw [← hs.2.1, ← hs.2.2.1]

/-- Witness for C10: the destinations `root@host@x` (split at the first `@`) and `host`. -/
theorem destination_at_first_at_witness :
    ('@' ∈ "root@host@x".data ∧
      ∃ name host, destination "me" "root@host@x" = (name, host) ∧
        name ++ "@" ++ host = "root@host@x" ∧ '@' ∉ name.data) ∧
    ('@' ∉ "host".data ∧ destination "me" "host" = ("me", "host")) :=
  ⟨⟨by decide, (destination_at_first_at "me" "root@host@x").1 (by decide)⟩,
    ⟨by decide, (destination_at_first_at "me" "host").2.1 (by decide)⟩⟩

/-! ## Loading the signer -/

theorem HasPrefix_iff (s pre : String) : HasPrefix s pre = true ↔ ∃ rest : String, s = pre ++ rest := by
  unfold HasPrefix
  rw [List.isPrefixOf_iff_prefix]
  constructor
  · rintro ⟨t, ht⟩
    exact ⟨⟨t⟩, String.ext (by simp [ht])⟩
  · rintro ⟨rest, hrest⟩
    exact ⟨rest.data, by rw [hrest]; simp⟩

theorem Sprintf_plain_failed : Sprintf "Failed to decode" [] = "Failed to decode" := by decide

theorem Sprintf_plain_notimpl : Sprintf "not implemented yet" [] = "not implemented yet" := by decide

/-- C8: loadSigner picks the signer kind from the selector alone. -/
theorem loadSigner_by_selector_shape (w : ClientWorld) (path : String) :
    (HasPrefix path "projects" = true ↔ ∃ rest : String, path = "projects" ++ rest) ∧
    (HasPrefix path "projects" = true →
      (∀ p, Event.readFile p ∉ (loadSigner w path).1) ∧
      (loadSigner w path).2 =
        match w.newKeyManagementClient
          (if w.getenv "GOOGLE_APPLICATION_CREDENTIALS" ≠ "" then
            [⟨w.getenv "GOOGLE_APPLICATION_CREDENTIALS"⟩] else []) with
        | .error err => (none, some err)
        | .ok client => w.newSigner client path) ∧
    (HasPrefix path "projects" = false →
      (∀ e ∈ (loadSigner w path).1, e = Event.readFile path) ∧
      ((loadSigner w path).2.2 = none ↔
        ∃ buf block k, w.readFile path = .ok buf ∧ w.pemDecode buf = some block ∧
          w.parsePKCS8PrivateKey block = .ok (.rsa k)) ∧
      (∀ buf block k, w.readFile path = .ok buf → w.pemDecode buf = some block →
        w.parsePKCS8PrivateKey block = .ok (.rsa k) →
          (loadSigner w path).2 = (some (.rsa k), none)) ∧
      ((loadSigner w path).2.2 ≠ none → (loadSigner w path).2.1 = none) ∧
      (∀ buf, w.readFile path = .ok buf → w.pemDecode buf = none →
        (loadSigner w path).2 = (none, some (.msg "Failed to decode"))) ∧
      (∀ buf block pk, w.readFile path = .ok buf → w.pemDecode buf = some block →
        w.parsePKCS8PrivateKey block = .ok pk → (∀ k, pk ≠ .rsa k) →
          (loadSigner w path).2 = (none, some (.msg "not implemented yet")))) := by
  refine ⟨HasPrefix_iff path "projects", fun hp => ?_, fun hp => ?_⟩
  · unfold loadSigner
    simp only [hp, if_true]
    cases hc : w.newKeyManagementClient
        (if w.getenv "GOOGLE_APPLICATION_CREDENTIALS" ≠ "" then
          [⟨w.getenv "GOOGLE_APPLICATION_CREDENTIALS"⟩] else []) <;> simp
  · unfold loadSigner
    simp only [hp, Bool.false_eq_true, if_false]
    cases hr : w.readFile path with
    | error err => simp
    | ok buf =>
      cases hd : w.pemDecode buf with
      | none =>
        simp [hd, Sprintf_plain_failed]
        refine ⟨?_, ?_⟩ <;> intro b blk x hb hpem <;> subst hb <;> rw [hd] at hpem <;>
          exact absurd hpem (by simp)
      | some block =>
        cases hk : w.parsePKCS8PrivateKey block with
        | error err =>
          simp [hd, hk]
          refine ⟨?_, ?_⟩ <;> intro b blk x hb hpem hparse <;> subst hb <;>
            rw [hd] at hpem <;> cases hpem <;> rw [hk] at hparse <;>
            exact absurd hparse (by simp)
        | ok pk =>
          cases pk <;> simp [hd, hk, Sprintf_plain_notimpl] <;>
            first
            | (refine ⟨?_, ?_⟩ <;> intro b blk x hb hpem hparse <;> subst hb <;>
                rw [hd] at hpem <;> cases hpem <;> rw [hk] at hparse <;>
                first
                | (cases hparse; rfl)
                | (cases hparse; exact ⟨_, rfl⟩))
            | (intro b blk x hb hpem hparse; subst hb; rw [hd] at hpem; cases hpem
               rw [hk] at hparse; simp_all)


/-- Witness for C8: a KMS selector with KMS out of reach, and a local file holding an RSA key. -/
theorem loadSigner_by_selector_shape_witness :
    (HasPrefix unreachableKmsWorld.key "projects" = true ∧
      (loadSigner unreachableKmsWorld unreachableKmsWorld.key).2 =
        (none, some (.msg "could not find default credentials"))) ∧
    (HasPrefix "id_rsa.pem" "projects" = false ∧
      (loadSigner localKeyWorld "id_rsa.pem").2 = (some (.rsa 7), none)) :=
  ⟨⟨by decide,
      ((loadSigner_by_selector_shape unreachableKmsWorld unreachableKmsWorld.key).2.1
        (by decide)).2.trans rfl⟩,
    ⟨by decide,
      ((loadSigner_by_selector_shape localKeyWorld "id_rsa.pem").2.2 (by decide)).2.2.1
        [45, 45] [48] 7 rfl rfl rfl⟩⟩

/-! ## Start-up of the client -/

theorem loadSigner_events (w : ClientWorld) (path : String) :
    ∀ e ∈ (loadSigner w path).1,
      (∃ opts, e = Event.newKeyManagementClient opts) ∨ e = Event.newSigner path ∨
        e = Event.readFile path := by
  unfold loadSigner
  by_cases hp : HasPrefix path "projects" = true
  · simp only [hp, if_true]
    cases w.newKeyManagementClient
        (if w.getenv "GOOGLE_APPLICATION_CREDENTIALS" ≠ "" then
          [⟨w.getenv "GOOGLE_APPLICATION_CREDENTIALS"⟩] else []) <;> simp
  · simp only [hp, if_false]
    cases hr : w.readFile path with
    | error err => simp
    | ok buf =>
      cases hd : w.pemDecode buf with
      | none => simp [hd]
      | some block =>
        cases hk : w.parsePKCS8PrivateKey block with
        | error err => simp [hd, hk]
        | ok pk => cases pk <;> simp [hd, hk]

theorem Sprintf_line (x : String) : Sprintf "%s\n" [.str x] = x ++ "\n" := by
  apply String.ext
  simp [Sprintf, sprintfLoop, extraMarker]

/-- C9: with `-authorized_key` set and the key loaded, the client prints the public key in
authorized-key form and ends with exit code 0, whatever the positional arguments are (the
empty list included), and no goroutine dialling a host is started; the usage message of the
missing-hostname check is printed only when `-authorized_key` is not set. -/
theorem printAuthorizedKey_before_hostname_check (w : ClientWorld) :
    (∀ s, w.key ≠ "" → (loadSigner w w.key).2.2 = none →
      w.newSignerFromSigner (loadSigner w w.key).2.1 = .ok s → w.printAuthorizedKey = true →
        ksshMain w =
          ([.signalNotify] ++ (loadSigner w w.key).1 ++
            [.newSignerFromSigner, .stdout (w.marshalAuthorizedKey s ++ "\n")], .exit 0)) ∧
    (Event.usage ∈ (ksshMain w).1 → w.printAuthorizedKey = false) := by
  constructor
  · intro s hkey hload hs hp
    unfold ksshMain
    simp [hkey, hload, hs, hp, Sprintf_line]
  · intro hu
    have hev := loadSigner_events w w.key
    have hno : Event.usage ∉ (loadSigner w w.key).1 := by
      intro hmem
      rcases hev _ hmem with ⟨_, h⟩ | h | h <;> cases h
    by_cases hp : w.printAuthorizedKey = true
    · exfalso
      unfold ksshMain at hu
      by_cases hk : w.key = ""
      · simp [hk] at hu
      · cases hl : (loadSigner w w.key).2.2 with
        | some err => simp [hk, hl, hno] at hu
        | none =>
          cases hs : w.newSignerFromSigner (loadSigner w w.key).2.1 with
          | error err => simp [hk, hl, hs, hno] at hu
          | ok s => simp [hk, hl, hs, hp, hno] at hu
    · simpa using hp

/-- Witness for C9: a local RSA key, `-authorized_key`, and no positional argument. -/
theorem printAuthorizedKey_before_hostname_check_witness :
    localKeyWorld.flagArgs = [] ∧
    ksshMain localKeyWorld =
      ([.signalNotify, .readFile "id_rsa.pem", .newSignerFromSigner,
        .stdout "ssh-rsa AAAA\n\n"], .exit 0) := by
  refine ⟨rfl, ?_⟩
  have h := (printAuthorizedKey_before_hostname_check localKeyWorld).1 ⟨7⟩
    (by decide) (by decide) rfl rfl
  rw [h]
  decide
/-! ## The accept loop -/

theorem Sprintf_accept (x : String) : Sprintf "accept: %s" [.str x] = "accept: " ++ x := by
  apply String.ext
  simp [Sprintf, sprintfLoop, extraMarker]

theorem served_set (hs : List Handler) (i : Nat) (h : Handler) (hget : hs[i]? = some h) :
    served (hs.set i { h with finished := true }) = served hs := by
  induction hs generalizing i with
  | nil => simp [served]
  | cons x t ih =>
    cases i with
    | zero =>
      simp at hget
      subst hget
      simp [served]
    | succ j =>
      simp at hget
      have := ih j (by simpa using hget)
      simp [served] at this ⊢
      exact this

theorem serveStep_sessionEnd (t : ServeState) (i : Nat) (err : Option GoError) :
    (serveStep t (.sessionEnd i err)).returned = t.returned ∧
    (serveStep t (.sessionEnd i err)).kr = t.kr ∧
    served (serveStep t (.sessionEnd i err)).handlers = served t.handlers := by
  unfold serveStep
  cases hget : t.handlers[i]? with
  | none => simp [hget]
  | some h =>
    by_cases hf : h.finished = true
    · simp [hget, hf]
    · simp [hget, hf, served_set t.handlers i h hget]

theorem serveFold (sched : List ServeAction) (t : ServeState) :
    (sched.foldl serveStep t).kr = t.kr ∧
    (sched.foldl serveStep t).returned =
      (if t.returned.isSome then t.returned
       else (firstAcceptError sched).map
        (fun e => (none, some (GoError.msg ("accept: " ++ e.Error))))) ∧
    served (sched.foldl serveStep t).handlers =
      served t.handlers ++
        (if t.returned.isSome then [] else (acceptedConns sched).map (fun c => (t.kr, c))) := by
  induction sched generalizing t with
  | nil => simp [firstAcceptError, acceptedConns]; cases t.returned <;> simp
  | cons a rest ih =>
    simp only [List.foldl_cons]
    obtain ⟨h1, h2, h3⟩ := ih (serveStep t a)
    rw [h1, h2, h3]
    cases a with
    | sessionEnd i err =>
      obtain ⟨g1, g2, g3⟩ := serveStep_sessionEnd t i err
      rw [g1, g2, g3]
      simp [firstAcceptError, acceptedConns]
    | accept r =>
      cases hret : t.returned with
      | some v => simp [serveStep, hret]
      | none =>
        cases r with
        | error e =>
          simp [serveStep, hret, acceptIteration, firstAcceptError, acceptedConns, Sprintf_accept]
        | ok c =>
          simp [serveStep, hret, acceptIteration, firstAcceptError, acceptedConns, served]

theorem firstAcceptError_isSome (sched : List ServeAction) :
    (firstAcceptError sched).isSome ↔ ∃ e, ServeAction.accept (.error e) ∈ sched := by
  induction sched with
  | nil => simp [firstAcceptError]
  | cons a rest ih =>
    cases a with
    | sessionEnd i err => simp [firstAcceptError, ih]
    | accept r =>
      cases r with
      | error e => simp [firstAcceptError]
      | ok c => simp [firstAcceptError, ih]

/-- C6: `Serve` returns if and only if a call to `Accept` fails, and then with a nil `env` and
the error `accept: ` followed by the cause of the first failure.  What the sessions return
plays no part: the result and the handlers started depend on the `Accept` results of the
schedule alone.  Every connection accepted gets exactly one handler, on the key ring passed to
`Serve`, and an `Accept` that returns a connection is served at once, whether or not the
handlers started earlier have finished. -/
theorem Serve_returns_iff_accept_fails (listener : String) (kr : Keyring)
    (sched : List ServeAction) :
    (serveRun listener kr sched).returned =
      (firstAcceptError sched).map
        (fun e => (none, some (GoError.msg ("accept: " ++ e.Error)))) ∧
    ((serveRun listener kr sched).returned.isSome ↔
      ∃ e, ServeAction.accept (.error e) ∈ sched) ∧
    served (serveRun listener kr sched).handlers =
      (acceptedConns sched).map (fun c => (kr, c)) ∧
    (∀ (t : ServeState) (c : Conn), t.returned = none →
      serveStep t (.accept (.ok c)) =
        { t with handlers := t.handlers ++ [⟨t.kr, c, false⟩] }) ∧
    (∀ (t : ServeState) (i : Nat) (err : Option GoError),
      (serveStep t (.sessionEnd i err)).returned = t.returned ∧
      served (serveStep t (.sessionEnd i err)).handlers = served t.handlers) := by
  obtain ⟨_, h2, h3⟩ := serveFold sched (Serve listener kr)
  have hret : (serveRun listener kr sched).returned =
      (firstAcceptError sched).map
        (fun e => (none, some (GoError.msg ("accept: " ++ e.Error)))) := by
    simpa [serveRun, Serve] using h2
  refine ⟨hret, ?_, ?_, ?_, ?_⟩
  · rw [hret, ← firstAcceptError_isSome]
    cases firstAcceptError sched <;> simp
  · simpa [serveRun, Serve, served] using h3
  · intro t c ht
    simp [serveStep, ht, acceptIteration]
  · intro t i err
    exact ⟨(serveStep_sessionEnd t i err).1, (serveStep_sessionEnd t i err).2.2⟩

/-! ## Start-up of the agent -/

theorem Sprintf_agent (pid : Int) : Sprintf "agent.%d" [.int pid] = "agent." ++ toString pid := by
  apply String.ext
  simp [Sprintf, sprintfLoop, extraMarker]

theorem Sprintf_sock (path : String) :
    Sprintf "SSH_AUTH_SOCK=%s" [.str path] = "SSH_AUTH_SOCK=" ++ path := by
  apply String.ext
  simp [Sprintf, sprintfLoop, extraMarker]

theorem Sprintf_pid (pid : Int) :
    Sprintf "SSH_AGENT_PID=%d" [.int pid] = "SSH_AGENT_PID=" ++ toString pid := by
  apply String.ext
  simp [Sprintf, sprintfLoop, extraMarker]

theorem Sprintf_script (path : String) (pid : Int) :
    Sprintf script [.str path, .int pid, .int pid] =
      "SSH_AUTH_SOCK=" ++ path ++ "; export SSH_AUTH_SOCK;\nSSH_AGENT_PID=" ++ toString pid ++
        "; export SSH_AGENT_PID;\necho Agent pid " ++ toString pid ++ ";\n" := by
  apply String.ext
  simp [Sprintf, script, sprintfLoop, extraMarker]

/-- The shape of the agent once its start-up code has started `Serve`. -/
theorem agentMain_serving (w : AgentWorld) (sv : ServeState)
    (hsv : (agentMain w).serve = some sv) :
    ∃ key rest client signer tmp,
      flagParse w.kmsKeyPath w.args = .ok (key, rest) ∧ key ≠ "" ∧
      w.newKeyManagementClient = .ok client ∧ w.newSigner client key = (signer, none) ∧
      w.tempDir = .ok tmp ∧
      w.listen (Join [tmp, "agent." ++ toString w.pid]) = none ∧
      sv.listener = Join [tmp, "agent." ++ toString w.pid] ∧
      sv.events = [] ∧ sv.returned = none ∧
      (agentMain w).trace =
        startupCalls key (Join [tmp, "agent." ++ toString w.pid]) ++
          (if 2 ≤ w.args.length then
            [Event.cmdStart (w.args.getD 1 "") (w.args.drop 2)
              (w.environ ++ ["SSH_AUTH_SOCK=" ++ Join [tmp, "agent." ++ toString w.pid],
                "SSH_AGENT_PID=" ++ toString w.pid])] ++
              (match w.cmdStart (w.args.getD 1 "") (w.args.drop 2)
                  (w.environ ++ ["SSH_AUTH_SOCK=" ++ Join [tmp, "agent." ++ toString w.pid],
                    "SSH_AGENT_PID=" ++ toString w.pid]) with
                | some err => [Event.log (Sprintf "exec command: %s" [.str err.Error])]
                | none => [])
          else
            [Event.stdout ("SSH_AUTH_SOCK=" ++ Join [tmp, "agent." ++ toString w.pid] ++
              "; export SSH_AUTH_SOCK;\nSSH_AGENT_PID=" ++ toString w.pid ++
              "; export SSH_AGENT_PID;\necho Agent pid " ++ toString w.pid ++ ";\n")]) := by
  unfold agentMain at hsv ⊢
  cases hfp : flagParse w.kmsKeyPath w.args with
  | error code => simp [hfp, halted] at hsv
  | ok kr =>
    obtain ⟨key, rest⟩ := kr
    by_cases hkey : key = ""
    · simp [hfp, hkey, halted] at hsv
    · cases hcl : w.newKeyManagementClient with
      | error err => simp [hfp, hkey, hcl, halted] at hsv
      | ok client =>
        cases hns : w.newSigner client key with
        | mk signer err =>
          cases err with
          | some err => simp [hfp, hkey, hcl, hns, halted] at hsv
          | none =>
            cases htd : w.tempDir with
            | error err => simp [hfp, hkey, hcl, hns, htd, halted] at hsv
            | ok tmp =>
              cases hli : w.listen (Join [tmp, "agent." ++ toString w.pid]) with
              | some err =>
                simp [hfp, hkey, hcl, hns, htd, Sprintf_agent, hli, halted] at hsv
              | none =>
                refine ⟨key, rest, client, signer, tmp, rfl, hkey, rfl, hns, rfl, hli, ?_⟩
                simp only [hfp, hkey, hcl, hns, htd, Sprintf_agent, hli, if_false,
                  Sprintf_sock, Sprintf_pid, Sprintf_script] at hsv ⊢
                by_cases hlen : 2 ≤ w.args.length
                · simp only [ge_iff_le, hlen, if_true] at hsv ⊢
                  cases hst : w.cmdStart (w.args.getD 1 "") (w.args.drop 2)
                    (w.environ ++ ["SSH_AUTH_SOCK=" ++ Join [tmp, "agent." ++ toString w.pid],
                      "SSH_AGENT_PID=" ++ toString w.pid]) with
                  | some err =>
                    simp only [hst] at hsv ⊢
                    cases hsv
                    simp [Serve, startupCalls]
                  | none =>
                    simp only [hst] at hsv ⊢
                    cases hsv
                    simp [Serve, startupCalls]
                · simp only [ge_iff_le, hlen, if_false] at hsv ⊢
                  cases hsv
                  simp [Serve, startupCalls]


/-! ## The environment of the child -/

theorem ite_ne_nul (c : Prop) [Decidable c] (a b : Char) (ha : a ≠ nul) (hb : b ≠ nul) :
    (if c then a else b) ≠ nul := by
  by_cases h : c
  · rw [if_pos h]; exact ha
  · rw [if_neg h]; exact hb

theorem digitChar_ne_nul (n : Nat) : Nat.digitChar n ≠ nul := by
  unfold Nat.digitChar
  iterate 16 (refine ite_ne_nul _ _ _ (by decide) ?_)
  decide

theorem toDigitsCore_no_nul (fuel n : Nat) (ds : List Char) (h : nul ∉ ds) :
    nul ∉ Nat.toDigitsCore 10 fuel n ds := by
  induction fuel generalizing n ds with
  | zero => simpa [Nat.toDigitsCore] using h
  | succ f ih =>
    have hd : nul ∉ Nat.digitChar (n % 10) :: ds := by
      intro hmem
      rcases List.mem_cons.1 hmem with h1 | h1
      · exact digitChar_ne_nul _ h1.symm
      · exact h h1
    unfold Nat.toDigitsCore
    by_cases h0 : n / 10 = 0
    · simpa [h0] using hd
    · simp only [h0, if_false]
      exact ih _ _ hd

theorem toString_nat_no_nul (n : Nat) : nul ∉ (toString n).data := by
  show nul ∉ (Nat.repr n).data
  simp only [Nat.repr, List.asString]
  exact toDigitsCore_no_nul _ _ _ (by simp)

theorem toString_int_no_nul (n : Int) : nul ∉ (toString n).data := by
  cases n with
  | ofNat m => exact toString_nat_no_nul m
  | negSucc m =>
    show nul ∉ ("-" ++ toString (Nat.succ m)).data
    simp only [String.data_append, List.mem_append, not_or]
    exact ⟨by decide, toString_nat_no_nul _⟩

theorem envKey_sock (p : String) : envKey ("SSH_AUTH_SOCK=" ++ p) = some "SSH_AUTH_SOCK" := by
  have h : ("SSH_AUTH_SOCK=" ++ p).data = "SSH_AUTH_SOCK=".data ++ p.data := by simp
  simp only [envKey, h]
  simp [Index, indexFrom, List.isPrefixOf]

theorem envKey_pid (p : String) : envKey ("SSH_AGENT_PID=" ++ p) = some "SSH_AGENT_PID" := by
  have h : ("SSH_AGENT_PID=" ++ p).data = "SSH_AGENT_PID=".data ++ p.data := by simp
  simp only [envKey, h]
  simp [Index, indexFrom, List.isPrefixOf]

theorem dedupEnvLoop_filter (l : List String) (saw saw1 : List String)
    (h : ∀ k, k ∈ saw1 ↔ k ∈ saw ∨ k = "SSH_AUTH_SOCK" ∨ k = "SSH_AGENT_PID") :
    dedupEnvLoop saw1 l = dedupEnvLoop saw (l.filter (fun kv => !setsAgentVar kv)) := by
  induction l generalizing saw saw1 with
  | nil => simp [dedupEnvLoop]
  | cons kv rest ih =>
    by_cases hn : nul ∈ kv.data
    · by_cases hs : setsAgentVar kv = true
      · simp [List.filter, hs, dedupEnvLoop, hn, ih saw saw1 h]
      · simp [List.filter, hs, dedupEnvLoop, hn, ih saw saw1 h]
    · cases hk : envKey kv with
      | none =>
        have hs : setsAgentVar kv = false := by simp [setsAgentVar, hk]
        by_cases he : kv = ""
        · subst he
          simp [List.filter, hs, dedupEnvLoop, hn, hk, ih saw saw1 h]
        · simp [List.filter, hs, dedupEnvLoop, hn, hk, he, ih saw saw1 h]
      | some k =>
        by_cases hs : setsAgentVar kv = true
        · have hk1 : k ∈ saw1 := by
            rw [h]
            simp [setsAgentVar, hk] at hs
            exact Or.inr hs
          simp [List.filter, hs, dedupEnvLoop, hn, hk, hk1, ih saw saw1 h]
        · have hs2 : ¬ (k = "SSH_AUTH_SOCK" ∨ k = "SSH_AGENT_PID") := by
            simpa [setsAgentVar, hk] using hs
          have hiff : k ∈ saw1 ↔ k ∈ saw := by
            rw [h]
            constructor
            · rintro (h1 | h1)
              · exact h1
              · exact absurd h1 hs2
            · exact Or.inl
          by_cases hmem : k ∈ saw
          · have hmem1 := hiff.2 hmem
            simp [List.filter, hs, dedupEnvLoop, hn, hk, hmem, hmem1, ih saw saw1 h]
          · have hmem1 : k ∉ saw1 := fun hx => hmem (hiff.1 hx)
            have h2 : ∀ k2, k2 ∈ k :: saw1 ↔
                k2 ∈ k :: saw ∨ k2 = "SSH_AUTH_SOCK" ∨ k2 = "SSH_AGENT_PID" := by
              intro k2
              simp only [List.mem_cons, h k2]
              tauto
            simp [List.filter, hs, dedupEnvLoop, hn, hk, hmem, hmem1,
              ih (k :: saw) (k :: saw1) h2]

/-- The environment `os/exec` hands to the child when the two entries of the agent are
appended to `environ`. -/
theorem cmdEnviron_agent (environ : List String) (path : String) (pid : Int)
    (hp : nul ∉ path.data) :
    cmdEnviron (environ ++ ["SSH_AUTH_SOCK=" ++ path, "SSH_AGENT_PID=" ++ toString pid]) =
      dedupEnv (environ.filter (fun kv => !setsAgentVar kv)) ++
        ["SSH_AUTH_SOCK=" ++ path, "SSH_AGENT_PID=" ++ toString pid] := by
  have hb : nul ∉ ("SSH_AGENT_PID=" ++ toString pid).data := by
    simp only [String.data_append, List.mem_append, not_or]
    exact ⟨by decide, toString_int_no_nul pid⟩
  have ha : nul ∉ ("SSH_AUTH_SOCK=" ++ path).data := by
    simp only [String.data_append, List.mem_append, not_or]
    exact ⟨by decide, hp⟩
  have hne : ¬ ("SSH_AUTH_SOCK" : String) = "SSH_AGENT_PID" := by decide
  have hl := dedupEnvLoop_filter environ.reverse [] ["SSH_AUTH_SOCK", "SSH_AGENT_PID"]
    (by intro k; simp)
  simp only [cmdEnviron, dedupEnv, List.reverse_append, List.reverse_cons, List.reverse_nil,
    List.nil_append, List.cons_append, List.singleton_append]
  simp only [dedupEnvLoop, hb, ha, if_false, envKey_pid, envKey_sock, List.not_mem_nil,
    List.mem_singleton, hne, hl, List.filter_reverse]
  simp

/-- C2, at its concrete input: `kssh-agent ssh host` of process 42 is started from a shell
whose environment already holds `SSH_AUTH_SOCK` and `SSH_AGENT_PID`.  The agent sets `cmd.Env`
to the list of the parent followed by its two entries, and `os/exec` keeps only the last entry
of each key: the child does not get the list of the parent unchanged. -/
theorem agent_child_env_not_parent_list :
    Event.cmdStart "ssh" ["host"]
        (inheritedAgentWorld.environ ++
          ["SSH_AUTH_SOCK=/tmp/kssh-1/agent.42", "SSH_AGENT_PID=42"]) ∈
      (agentMain inheritedAgentWorld).trace ∧
    cmdEnviron (inheritedAgentWorld.environ ++
        ["SSH_AUTH_SOCK=/tmp/kssh-1/agent.42", "SSH_AGENT_PID=42"]) =
      ["HOME=/root", "SSH_AUTH_SOCK=/tmp/kssh-1/agent.42", "SSH_AGENT_PID=42"] ∧
    cmdEnviron (inheritedAgentWorld.environ ++
        ["SSH_AUTH_SOCK=/tmp/kssh-1/agent.42", "SSH_AGENT_PID=42"]) ≠
      inheritedAgentWorld.environ ++
        ["SSH_AUTH_SOCK=/tmp/kssh-1/agent.42", "SSH_AGENT_PID=42"] :=
  ⟨by decide, by decide, by decide⟩

/-- C2, as amended: once the listener exists, the path given to `net.Listen` is the temporary
directory joined with `agent.<pid>`.  In exec mode `cmd.Env` is the environment list of the
parent followed by `SSH_AUTH_SOCK=<path>` and `SSH_AGENT_PID=<pid>`; the environment of the
child is that list as `os/exec` cuts it down to the last entry of each key, which is the list
of the parent without its own entries for the two variables, cut down in the same way, and
followed by the two entries.  It is the list of the parent unchanged followed by the two
entries when that list sets neither variable and repeats no key.  In print mode the script
printed carries the same path and process id. -/
theorem agent_env_matches_listener (w : AgentWorld) (sv : ServeState) (tmp : String)
    (htmp : w.tempDir = .ok tmp) (hsv : (agentMain w).serve = some sv) :
    sv.listener = Join [tmp, "agent." ++ toString w.pid] ∧
    (∀ n a, Event.listen n a ∈ (agentMain w).trace ↔ n = "unix" ∧ a = sv.listener) ∧
    (2 ≤ w.args.length →
      ∀ name args env, Event.cmdStart name args env ∈ (agentMain w).trace ↔
        name = w.args.getD 1 "" ∧ args = w.args.drop 2 ∧
          env = w.environ ++
            ["SSH_AUTH_SOCK=" ++ sv.listener, "SSH_AGENT_PID=" ++ toString w.pid]) ∧
    (w.args.length < 2 →
      ∀ text, Event.stdout text ∈ (agentMain w).trace ↔
        text = "SSH_AUTH_SOCK=" ++ sv.listener ++ "; export SSH_AUTH_SOCK;\nSSH_AGENT_PID=" ++
          toString w.pid ++ "; export SSH_AGENT_PID;\necho Agent pid " ++ toString w.pid ++
          ";\n") ∧
    (2 ≤ w.args.length → nul ∉ sv.listener.data →
      cmdEnviron (w.environ ++
          ["SSH_AUTH_SOCK=" ++ sv.listener, "SSH_AGENT_PID=" ++ toString w.pid]) =
        dedupEnv (w.environ.filter (fun kv => !setsAgentVar kv)) ++
          ["SSH_AUTH_SOCK=" ++ sv.listener, "SSH_AGENT_PID=" ++ toString w.pid] ∧
      ((∀ kv ∈ w.environ, setsAgentVar kv = false) → dedupEnv w.environ = w.environ →
        cmdEnviron (w.environ ++
            ["SSH_AUTH_SOCK=" ++ sv.listener, "SSH_AGENT_PID=" ++ toString w.pid]) =
          w.environ ++
            ["SSH_AUTH_SOCK=" ++ sv.listener, "SSH_AGENT_PID=" ++ toString w.pid])) := by
  obtain ⟨key, rest, client, signer, tmp1, _, _, _, _, htd, _, hl, _, _, htr⟩ :=
    agentMain_serving w sv hsv
  rw [htmp] at htd
  cases htd
  rw [htr, hl]
  refine ⟨rfl, ?_, ?_, ?_, ?_⟩
  · intro n a
    by_cases hlen : 2 ≤ w.args.length
    · simp only [hlen, if_true]
      cases w.cmdStart (w.args.getD 1 "") (w.args.drop 2)
        (w.environ ++ ["SSH_AUTH_SOCK=" ++ Join [tmp, "agent." ++ toString w.pid],
          "SSH_AGENT_PID=" ++ toString w.pid]) <;> simp [startupCalls]
    · simp [hlen, startupCalls]
  · intro hlen name args env
    simp only [hlen, if_true]
    cases w.cmdStart (w.args.getD 1 "") (w.args.drop 2)
      (w.environ ++ ["SSH_AUTH_SOCK=" ++ Join [tmp, "agent." ++ toString w.pid],
        "SSH_AGENT_PID=" ++ toString w.pid]) <;> simp [startupCalls]
  · intro hlen text
    have hlen2 : ¬ 2 ≤ w.args.length := by omega
    simp [hlen2, startupCalls]
  · intro _ hnul
    have hc := cmdEnviron_agent w.environ (Join [tmp, "agent." ++ toString w.pid]) w.pid hnul
    refine ⟨hc, fun hnone hdedup => ?_⟩
    have hf : w.environ.filter (fun kv => !setsAgentVar kv) = w.environ := by
      apply List.filter_eq_self.2
      intro kv hkv
      simp [hnone kv hkv]
    rw [hc, hf, hdedup]

/-- Witness for C2: print mode (`kssh-agent`) and exec mode (`kssh-agent ssh host`) of process
42 with temporary directory `/tmp/kssh-1`; in exec mode the parent has `HOME` only, or has
the two variables of an earlier agent. -/
theorem agent_env_matches_listener_witness :
    (Event.stdout ("SSH_AUTH_SOCK=/tmp/kssh-1/agent.42; export SSH_AUTH_SOCK;\n" ++
        "SSH_AGENT_PID=42; export SSH_AGENT_PID;\necho Agent pid 42;\n") ∈
      (agentMain agentWorld).trace) ∧
    (Event.cmdStart "ssh" ["host"]
        ["HOME=/root", "SSH_AUTH_SOCK=/tmp/kssh-1/agent.42", "SSH_AGENT_PID=42"] ∈
      (agentMain commandWorld).trace) ∧
    cmdEnviron ["HOME=/root", "SSH_AUTH_SOCK=/tmp/kssh-1/agent.42", "SSH_AGENT_PID=42"] =
      ["HOME=/root", "SSH_AUTH_SOCK=/tmp/kssh-1/agent.42", "SSH_AGENT_PID=42"] ∧
    cmdEnviron (inheritedAgentWorld.environ ++
        ["SSH_AUTH_SOCK=/tmp/kssh-1/agent.42", "SSH_AGENT_PID=42"]) =
      dedupEnv ["HOME=/root"] ++ ["SSH_AUTH_SOCK=/tmp/kssh-1/agent.42", "SSH_AGENT_PID=42"] :=
  ⟨((agent_env_matches_listener agentWorld (Serve "/tmp/kssh-1/agent.42"
        ⟨[⟨some (.kms 0), "kssh"⟩]⟩) "/tmp/kssh-1" rfl (by decide)).2.2.2.1 (by decide) _).2
      (by decide),
    ((agent_env_matches_listener commandWorld (Serve "/tmp/kssh-1/agent.42"
        ⟨[⟨some (.kms 0), "kssh"⟩]⟩) "/tmp/kssh-1" rfl (by decide)).2.2.1 (by decide) _ _ _).2
      (by decide),
    ((agent_env_matches_listener commandWorld (Serve "/tmp/kssh-1/agent.42"
        ⟨[⟨some (.kms 0), "kssh"⟩]⟩) "/tmp/kssh-1" rfl (by decide)).2.2.2.2 (by decide)
      (by decide)).2 (by decide) (by decide),
    ((agent_env_matches_listener inheritedAgentWorld (Serve "/tmp/kssh-1/agent.42"
        ⟨[⟨some (.kms 0), "kssh"⟩]⟩) "/tmp/kssh-1" rfl (by decide)).2.2.2.2 (by decide)
      (by decide)).1⟩

/-- C1, evaluated on `kssh-agent -i KEY` and on `kssh-agent -i KEY ssh host` (every call
succeeds, process 42): `flag.Parse` takes `KEY` as the selector and leaves no command,
respectively the command `ssh host`, but the agent starts a child named `-i` with the rest of
`os.Args` as its arguments, and prints no script. -/
theorem agentMain_flag_taken_as_command :
    flagParse "" flagOnlyWorld.args = .ok ("KEY", []) ∧
    agentMain flagOnlyWorld =
      ⟨startupCalls "KEY" "/tmp/kssh-1/agent.42" ++
          [.cmdStart "-i" ["KEY"]
            ["HOME=/root", "SSH_AUTH_SOCK=/tmp/kssh-1/agent.42", "SSH_AGENT_PID=42"]],
        none, some (Serve "/tmp/kssh-1/agent.42" ⟨[⟨some (.kms 0), "kssh"⟩]⟩), true⟩ ∧
    flagParse "" flagCommandWorld.args = .ok ("KEY", ["ssh", "host"]) ∧
    agentMain flagCommandWorld =
      ⟨startupCalls "KEY" "/tmp/kssh-1/agent.42" ++
          [.cmdStart "-i" ["KEY", "ssh", "host"]
            ["HOME=/root", "SSH_AUTH_SOCK=/tmp/kssh-1/agent.42", "SSH_AGENT_PID=42"]],
        none, some (Serve "/tmp/kssh-1/agent.42" ⟨[⟨some (.kms 0), "kssh"⟩]⟩), true⟩ :=
  ⟨rfl, by decide, rfl, by decide⟩

/-! ## Exit codes at start-up -/

/-- C3: with an empty key selector both programs print the request for a key and exit with
code 2 having made no other call; with a non-empty selector, a failure to create the KMS
client or to load the signer makes them exit with code 1 before the agent listens and before
the client starts the goroutine that dials. -/
theorem startup_exit_codes (cw : ClientWorld) (aw : AgentWorld) :
    (cw.key = "" → ksshMain cw = ([.stdout "Please set kms key\n"], .exit 2)) ∧
    (cw.key ≠ "" →
      ((loadSigner cw cw.key).2.2 ≠ none ∨
        ∃ err, cw.newSignerFromSigner (loadSigner cw cw.key).2.1 = .error err) →
      (ksshMain cw).2 = .exit 1 ∧
      ∀ e ∈ (ksshMain cw).1, (∀ u h p, e ≠ .goRun u h p) ∧ (∀ n a, e ≠ .listen n a)) ∧
    (∀ rest, flagParse aw.kmsKeyPath aw.args = .ok ("", rest) →
      agentMain aw = ⟨[.stdout "Please set kms key\n"], some 2, none, false⟩) ∧
    (∀ key rest, flagParse aw.kmsKeyPath aw.args = .ok (key, rest) → key ≠ "" →
      ((∃ err, aw.newKeyManagementClient = .error err) ∨
        ∃ client err, aw.newKeyManagementClient = .ok client ∧
          (aw.newSigner client key).2 = some err) →
      (agentMain aw).exit = some 1 ∧ (agentMain aw).serve = none ∧
      ∀ e ∈ (agentMain aw).trace, ∀ n a, e ≠ .listen n a) := by
  refine ⟨?_, ?_, ?_, ?_⟩
  · intro hk
    simp [ksshMain, hk]
  · intro hk hfail
    have hev := loadSigner_events cw cw.key
    have hno : ∀ e ∈ (loadSigner cw cw.key).1,
        (∀ u h p, e ≠ .goRun u h p) ∧ (∀ n a, e ≠ .listen n a) := by
      intro e he
      rcases hev e he with ⟨_, h⟩ | h | h <;> subst h <;> simp
    unfold ksshMain
    cases hl : (loadSigner cw cw.key).2.2 with
    | some err =>
      simp only [hk, if_false, hl]
      refine ⟨trivial, ?_⟩
      intro e he
      simp at he
      rcases he with h | h | h
      · subst h; simp
      · exact hno e h
      · subst h; simp
    | none =>
      rcases hfail with h | ⟨err, h⟩
      · exact absurd hl h
      · simp only [hk, if_false, hl, h]
        refine ⟨trivial, ?_⟩
        intro e he
        simp at he
        rcases he with h | h | h | h
        · subst h; simp
        · exact hno e h
        · subst h; simp
        · subst h; simp
  · intro rest hfp
    simp [agentMain, hfp, halted]
  · intro key rest hfp hk hfail
    unfold agentMain
    rcases hfail with ⟨err, h⟩ | ⟨client, err, h, hs⟩
    · simp [hfp, hk, h, halted]
    · cases hns : aw.newSigner client key with
      | mk signer e2 =>
        rw [hns] at hs
        simp at hs
        subst hs
        simp [hfp, hk, h, hns, halted]

/-- Witness for C3: a client whose KMS selector cannot be served, and an agent started
without any key selector. -/
theorem startup_exit_codes_witness :
    (unreachableKmsWorld.key ≠ "" ∧ (ksshMain unreachableKmsWorld).2 = .exit 1) ∧
    (flagParse "" ["kssh-agent"] = .ok ("", []) ∧
      agentMain { agentWorld with kmsKeyPath := "" } =
        ⟨[.stdout "Please set kms key\n"], some 2, none, false⟩) :=
  ⟨⟨by decide,
      ((startup_exit_codes unreachableKmsWorld agentWorld).2.1 (by decide)
        (Or.inl (by decide))).1⟩,
    ⟨rfl, (startup_exit_codes localKeyWorld { agentWorld with kmsKeyPath := "" }).2.2.1 [] rfl⟩⟩

/-! ## The handlers of the server -/

/-- C5, evaluated on a connection whose session ends with `io.EOF`, with another error and
with no error: only in the last case does the handler call `conn.Close()`; on `io.EOF` it
returns having made no call at all, on another error having only logged it. -/
theorem handler_returns_without_close_on_error :
    serveRun "sock" ⟨[]⟩ [.accept (.ok 7), .sessionEnd 0 (some .eof)] =
      ⟨"sock", ⟨[]⟩, [⟨⟨[]⟩, 7, true⟩], none, []⟩ ∧
    serveRun "sock" ⟨[]⟩ [.accept (.ok 7), .sessionEnd 0 (some (.msg "broken pipe"))] =
      ⟨"sock", ⟨[]⟩, [⟨⟨[]⟩, 7, true⟩], none, [.log "serve agent: broken pipe"]⟩ ∧
    serveRun "sock" ⟨[]⟩ [.accept (.ok 7), .sessionEnd 0 none] =
      ⟨"sock", ⟨[]⟩, [⟨⟨[]⟩, 7, true⟩], none, [.connClose 7]⟩ := by
  decide

/-- Witness for C6: two connections are served, the session of the first ends with an error,
then `Accept` fails; a connection offered after that is not served. -/
theorem Serve_returns_iff_accept_fails_witness :
    (serveRun "sock" ⟨[]⟩
      [.accept (.ok 1), .sessionEnd 0 (some (.msg "broken pipe")), .accept (.ok 2),
        .accept (.error (.msg "closed")), .accept (.ok 3)]).returned =
      some (none, some (.msg "accept: closed")) ∧
    served (serveRun "sock" ⟨[]⟩
      [.accept (.ok 1), .sessionEnd 0 (some (.msg "broken pipe")), .accept (.ok 2),
        .accept (.error (.msg "closed")), .accept (.ok 3)]).handlers = [(⟨[]⟩, 1), (⟨[]⟩, 2)] :=
  ⟨(Serve_returns_iff_accept_fails "sock" ⟨[]⟩ _).1.trans (by decide),
    (Serve_returns_iff_accept_fails "sock" ⟨[]⟩ _).2.2.1.trans (by decide)⟩


/-! ## The agent while it serves -/

theorem agentMain_no_release (w : AgentWorld) (path : String) :
    ∀ e ∈ (agentMain w).trace, e.releases path = false := by
  unfold agentMain
  cases flagParse w.kmsKeyPath w.args with
  | error code => simp [halted, Event.releases]
  | ok kr =>
    obtain ⟨key, rest⟩ := kr
    by_cases hkey : key = ""
    · simp [hkey, halted, Event.releases]
    · cases hcl : w.newKeyManagementClient with
      | error err => simp [hkey, halted, Event.releases]
      | ok client =>
        cases hns : w.newSigner client key with
        | mk signer err =>
          cases err with
          | some err => simp [hkey, hns, halted, Event.releases]
          | none =>
            cases htd : w.tempDir with
            | error err => simp [hkey, hns, halted, Event.releases]
            | ok tmp =>
              cases hli : w.listen (Join [tmp, Sprintf "agent.%d" [.int w.pid]]) with
              | some err => simp [hkey, hns, hli, halted, Event.releases]
              | none =>
                by_cases hlen : 2 ≤ w.args.length
                · simp only [hkey, hns, hli, hlen, if_false, if_true, ge_iff_le]
                  split <;> simp [Event.releases]
                · simp [hkey, hns, hli, hlen, Event.releases]

theorem handlerBody_no_release (conn : Conn) (err : Option GoError) (path : String) :
    ∀ e ∈ handlerBody conn err, e.releases path = false := by
  unfold handlerBody
  cases err with
  | none => simp [Event.releases]
  | some e => by_cases he : e = GoError.eof <;> simp [he, Event.releases]

theorem serveStep_no_release (t : ServeState) (a : ServeAction) (path : String)
    (h : ∀ e ∈ t.events, e.releases path = false) :
    ∀ e ∈ (serveStep t a).events, e.releases path = false := by
  cases a with
  | accept r =>
    unfold serveStep
    cases hret : t.returned with
    | some v => simpa [hret] using h
    | none => cases r <;> simpa [hret, acceptIteration] using h
  | sessionEnd i err =>
    unfold serveStep
    cases hget : t.handlers[i]? with
    | none => simpa [hget] using h
    | some hd =>
      by_cases hf : hd.finished = true
      · simpa [hget, hf] using h
      · intro e he
        simp [hget, hf] at he
        rcases he with he | he
        · exact h e he
        · exact handlerBody_no_release hd.conn err path e he

theorem agentStep_no_release (s : AgentState) (a : Action) (path : String)
    (h : ∀ e ∈ s.allEvents, e.releases path = false) :
    ∀ e ∈ (agentStep s a).allEvents, e.releases path = false := by
  unfold agentStep
  by_cases hx : s.exit.isSome = true
  · simpa [hx] using h
  · simp only [hx, if_false]
    cases a with
    | signal =>
      intro e he
      simp [AgentState.allEvents] at he
      rcases he with he | he | he | he
      · exact h e (by simp [AgentState.allEvents, he])
      · subst he; rfl
      · subst he; rfl
      · exact h e (by simp [AgentState.allEvents, he])
    | cmdExit =>
      by_cases hw : s.cmdWaiting = true
      · intro e he
        simp [AgentState.allEvents, hw] at he
        rcases he with he | he | he | he | he
        · exact h e (by simp [AgentState.allEvents, he])
        · subst he; rfl
        · subst he; rfl
        · subst he; rfl
        · exact h e (by simp [AgentState.allEvents, he])
      · simpa [hw] using h
    | serve sa =>
      intro e he
      cases hsv : s.serve with
      | none =>
        simp [AgentState.allEvents, hsv] at he
        exact h e (by simp [AgentState.allEvents, he])
      | some sv =>
        simp [AgentState.allEvents, hsv] at he
        rcases he with he | he
        · exact h e (by simp [AgentState.allEvents, he])
        · refine serveStep_no_release sv sa path ?_ e he
          intro e2 he2
          exact h e2 (by simp [AgentState.allEvents, hsv, he2])

theorem agentRun_no_release (w : AgentWorld) (sched : List Action) (path : String) :
    ∀ e ∈ (agentRun w sched).allEvents, e.releases path = false := by
  unfold agentRun
  have h0 : ∀ e ∈ (agentMain w).allEvents, e.releases path = false := by
    intro e he
    simp only [AgentState.allEvents, List.mem_append] at he
    rcases he with he | he
    · exact agentMain_no_release w path e he
    · cases hsv : (agentMain w).serve with
      | none => simp [hsv] at he
      | some sv =>
        obtain ⟨_, _, _, _, _, _, _, _, _, _, _, _, hev, _, _⟩ := agentMain_serving w sv hsv
        simp [hsv, hev] at he
  generalize agentMain w = s at h0
  induction sched generalizing s with
  | nil => simpa using h0
  | cons a rest ih =>
    simp only [List.foldl_cons]
    exact ih _ (agentStep_no_release s a path h0)

theorem agentRun_serve_only (sched : List Action) (s : AgentState)
    (h : ∀ a ∈ sched, a.isServe = true) : (sched.foldl agentStep s).exit = s.exit := by
  induction sched generalizing s with
  | nil => rfl
  | cons a rest ih =>
    simp only [List.foldl_cons]
    rw [ih _ (fun b hb => h b (List.mem_cons_of_mem a hb))]
    have ha := h a (List.mem_cons_self a rest)
    cases a with
    | serve sa =>
      unfold agentStep
      by_cases hx : s.exit.isSome = true <;> simp [hx]
    | signal => simp [Action.isServe] at ha
    | cmdExit => simp [Action.isServe] at ha

/-- C4, at its concrete input: the agent of process 42 prints its script and serves on
`/tmp/kssh-1/agent.42`; a termination signal ends the process with exit code 0, and no call
made up to then closes the listener or removes that path. -/
theorem agent_signal_leaves_socket :
    (agentRun agentWorld [.signal]).exit = some 0 ∧
    (agentRun agentWorld [.signal]).serve.map (fun sv => sv.listener) =
      some "/tmp/kssh-1/agent.42" ∧
    Event.listen "unix" "/tmp/kssh-1/agent.42" ∈ (agentRun agentWorld [.signal]).trace ∧
    (agentRun agentWorld [.signal]).trace.drop 8 = [.cancel, .clientClose] ∧
    ((agentRun agentWorld [.signal]).allEvents.any
      (Event.releases "/tmp/kssh-1/agent.42")) = false :=
  ⟨by decide, by decide, by decide, by decide, by decide⟩

/-- C4, as amended: on every run of the agent no call closes the listener or removes the
socket path, so the path is still there on each exit path taken after the listener was
created.  A signal ends a running agent with exit code 0 after `cancel()` and the deferred
`client.Close()`; so does the end of the child in exec mode. -/
theorem agent_never_releases_endpoint (w : AgentWorld) (sched : List Action) :
    (∀ path, ∀ e ∈ (agentRun w sched).allEvents, e.releases path = false) ∧
    ((agentRun w sched).exit = none →
      (agentStep (agentRun w sched) .signal).exit = some 0 ∧
      (agentStep (agentRun w sched) .signal).trace =
        (agentRun w sched).trace ++ [.cancel, .clientClose]) ∧
    ((agentRun w sched).exit = none → (agentRun w sched).cmdWaiting = true →
      (agentStep (agentRun w sched) .cmdExit).exit = some 0 ∧
      (agentStep (agentRun w sched) .cmdExit).trace =
        (agentRun w sched).trace ++ [.cmdWaitReturned, .cancel, .clientClose]) := by
  refine ⟨fun path => agentRun_no_release w sched path, ?_, ?_⟩
  · intro hx
    simp [agentStep, hx]
  · intro hx hw
    simp [agentStep, hx, hw]

/-- Witness for C4: the agent in exec mode, while it serves a connection, receives a signal
or sees its child end. -/
theorem agent_never_releases_endpoint_witness :
    (agentRun commandWorld [.serve (.accept (.ok 1))]).exit = none ∧
    (agentRun commandWorld [.serve (.accept (.ok 1))]).cmdWaiting = true ∧
    (agentStep (agentRun commandWorld [.serve (.accept (.ok 1))]) .signal).exit = some 0 ∧
    (agentStep (agentRun commandWorld [.serve (.accept (.ok 1))]) .cmdExit).exit = some 0 :=
  ⟨by decide, by decide,
    ((agent_never_releases_endpoint commandWorld [.serve (.accept (.ok 1))]).2.1
      (by decide)).1,
    ((agent_never_releases_endpoint commandWorld [.serve (.accept (.ok 1))]).2.2
      (by decide) (by decide)).1⟩

/-- C7, at its concrete input: in the serving agent of process 42 an `Accept` fails; `Serve`
returns its error and the process goes on running, with no exit code. -/
theorem agent_accept_failure_not_fatal :
    (agentRun agentWorld [acceptFailure]).serve.map (fun sv => sv.returned) =
      some (some (none, some (.msg "accept: accept4: too many open files"))) ∧
    (agentRun agentWorld [acceptFailure]).exit = none := by
  decide

/-- C7, as amended: a failure of `net.Listen` ends the process with exit code 1 and no server
is started.  A failed `Accept` makes `Serve` return its error while the process goes on
running: steps of the server goroutines never change the exit status of the process. -/
theorem listener_failures (w : AgentWorld) (sched : List Action) :
    (∀ key rest client signer tmp err,
      flagParse w.kmsKeyPath w.args = .ok (key, rest) → key ≠ "" →
      w.newKeyManagementClient = .ok client → w.newSigner client key = (signer, none) →
      w.tempDir = .ok tmp → w.listen (Join [tmp, "agent." ++ toString w.pid]) = some err →
        (agentMain w).exit = some 1 ∧ (agentMain w).serve = none) ∧
    ((∀ a ∈ sched, a.isServe = true) → (agentRun w sched).exit = (agentMain w).exit) ∧
    (∀ sv err, (agentRun w sched).exit = none → (agentRun w sched).serve = some sv →
      sv.returned = none →
        (agentStep (agentRun w sched) (.serve (.accept (.error err)))).exit = none ∧
        (agentStep (agentRun w sched) (.serve (.accept (.error err)))).serve.map
            (fun s => s.returned) =
          some (some (none, some (.msg ("accept: " ++ err.Error))))) := by
  refine ⟨?_, fun h => agentRun_serve_only sched (agentMain w) h, ?_⟩
  · intro key rest client signer tmp err hfp hk hcl hns htd hli
    unfold agentMain
    simp [hfp, hk, hcl, hns, htd, Sprintf_agent, hli, halted]
  · intro sv err hx hsv hret
    simp [agentStep, hx, hsv, serveStep, hret, acceptIteration, Sprintf_accept]

/-- Witness for C7: `net.Listen` fails at start-up; and an `Accept` fails in a serving agent. -/
theorem listener_failures_witness :
    (agentMain listenFailsWorld).exit = some 1 ∧
    (agentRun agentWorld [acceptFailure, .serve (.accept (.ok 1))]).exit = none :=
  ⟨((listener_failures listenFailsWorld []).1 agentWorld.kmsKeyPath [] 0 (some (.kms 0))
      "/tmp/kssh-1" (.msg "bind: permission denied") rfl (by decide) rfl rfl rfl rfl).1,
    ((listener_failures agentWorld [acceptFailure, .serve (.accept (.ok 1))]).2.1
      (by decide)).trans (by decide)⟩

end Kssh
